import Mathlib

/-!
Shallow embedding of the password-strength analysis functions of
`src/main.py` (module-level functions `analyze_entropy`,
`analyze_character_distribution`, `find_patterns`, `calculate_crack_time`,
`get_suggestions`), together with theorems settling the specification
claims about them.

A password is modelled as a `List Char`.  The Python character-class
membership tests are embedded as decidable Boolean predicates on the
character's code point:
  * `string.ascii_lowercase` is exactly the characters with codes 97–122;
  * `string.ascii_uppercase` is exactly codes 65–90;
  * `string.digits` is exactly codes 48–57;
  * `string.punctuation` (the 32 characters of the literal
    `!"#$%&()*+,-./:;<=>?@[\]^_\x7b|\x7d~` together with the apostrophe and
    the backtick) is exactly the codes 33–47, 58–64, 91–96 and 123–126.
Real-valued arithmetic (`math.log2`, `2 ** e`) is embedded over `ℝ` with
`Real.logb` and real exponentiation.
-/

/-- Membership in Python's `string.ascii_lowercase` (codes 97–122). -/
def isAsciiLowercase (c : Char) : Bool :=
  decide (97 ≤ c.toNat) && decide (c.toNat ≤ 122)

/-- Membership in Python's `string.ascii_uppercase` (codes 65–90). -/
def isAsciiUppercase (c : Char) : Bool :=
  decide (65 ≤ c.toNat) && decide (c.toNat ≤ 90)

/-- Membership in Python's `string.digits` (codes 48–57). -/
def isDigitChar (c : Char) : Bool :=
  decide (48 ≤ c.toNat) && decide (c.toNat ≤ 57)

/-- Membership in Python's `string.punctuation`: the 32 ASCII characters
with codes 33–47, 58–64, 91–96 or 123–126. -/
def isPunctuationChar (c : Char) : Bool :=
  (decide (33 ≤ c.toNat) && decide (c.toNat ≤ 47)) ||
  (decide (58 ≤ c.toNat) && decide (c.toNat ≤ 64)) ||
  (decide (91 ≤ c.toNat) && decide (c.toNat ≤ 96)) ||
  (decide (123 ≤ c.toNat) && decide (c.toNat ≤ 126))

/-- The test `c not in string.ascii_letters + string.digits + string.punctuation`
used for the `other` bucket of `analyze_character_distribution`
(`string.ascii_letters` is `ascii_lowercase + ascii_uppercase`). -/
def isOtherChar (c : Char) : Bool :=
  !(isAsciiLowercase c || isAsciiUppercase c || isDigitChar c || isPunctuationChar c)

/-- Result record of `analyze_character_distribution` (the Python dict with
fixed keys lowercase / uppercase / digits / special / other). -/
structure CharDistribution where
  lowercase : Nat
  uppercase : Nat
  digits : Nat
  special : Nat
  other : Nat
deriving Repr, DecidableEq

/-- Embedding of `analyze_character_distribution` (src/main.py lines 61–70):
each bucket is the number of characters of the password satisfying the
corresponding membership test. -/
def analyze_character_distribution (password : List Char) : CharDistribution where
  lowercase := password.countP isAsciiLowercase
  uppercase := password.countP isAsciiUppercase
  digits := password.countP isDigitChar
  special := password.countP isPunctuationChar
  other := password.countP isOtherChar

/-- Every character falls in exactly one of the five buckets of
`analyze_character_distribution`. -/
lemma char_class_partition (c : Char) :
    ((if isAsciiLowercase c = true then 1 else 0) +
     (if isAsciiUppercase c = true then 1 else 0) +
     (if isDigitChar c = true then 1 else 0) +
     (if isPunctuationChar c = true then 1 else 0) +
     (if isOtherChar c = true then 1 else 0) : Nat) = 1 := by
  simp only [isOtherChar, isAsciiLowercase, isAsciiUppercase, isDigitChar, isPunctuationChar,
    Bool.or_eq_true, Bool.and_eq_true, Bool.not_eq_true', Bool.or_eq_false_iff,
    Bool.and_eq_false_iff, decide_eq_true_eq, decide_eq_false_iff_not]
  split_ifs <;> omega

/-- C1: for every password, the five counts returned by
`analyze_character_distribution` sum to the password's length. -/
theorem analyze_character_distribution_sum (p : List Char) :
    (analyze_character_distribution p).lowercase +
    (analyze_character_distribution p).uppercase +
    (analyze_character_distribution p).digits +
    (analyze_character_distribution p).special +
    (analyze_character_distribution p).other = p.length := by
  induction p with
  | nil => rfl
  | cons c t ih =>
    simp only [analyze_character_distribution, List.countP_cons, List.length_cons] at ih ⊢
    have hc := char_class_partition c
    omega

/-- ASCII case folding: embedding of Python's `str.lower` restricted to the
ASCII range (sufficient for the ASCII keyboard rows and dictionary words the
detector compares against). -/
def asciiLower (c : Char) : Char :=
  if isAsciiUppercase c then Char.ofNat (c.toNat + 32) else c

/-- All consecutive character triples `(p[i], p[i+1], p[i+2])` of a list, in
order — the index space of the two `for i in range(len(password) - 2)` loops
of `find_patterns`. -/
def triples : List Char → List (Char × Char × Char)
  | a :: b :: c :: t => (a, b, c) :: triples (b :: c :: t)
  | _ => []

/-- Does `needle` occur at the very start of `hay`?  Helper for Python's
substring test. -/
def matchesAt : List Char → List Char → Bool
  | [], _ => true
  | _ :: _, [] => false
  | a :: as, b :: bs => a == b && matchesAt as bs

/-- Python's substring containment `needle in hay`. -/
def containsSub (needle : List Char) : List Char → Bool
  | [] => matchesAt needle []
  | c :: t => matchesAt needle (c :: t) || containsSub needle t

/-- Result record of `find_patterns` (the Python dict with fixed keys
sequential_chars / repeated_chars / keyboard_patterns / common_words). -/
structure PatternCounts where
  sequential_chars : Nat
  repeated_chars : Nat
  keyboard_patterns : Nat
  common_words : Nat
deriving Repr, DecidableEq

/-- The three fixed keyboard-row strings of `find_patterns`. -/
def keyboard_rows : List (List Char) :=
  ["qwertyuiop".toList, "asdfghjkl".toList, "zxcvbnm".toList]

/-- The ten fixed dictionary words of `find_patterns`. -/
def common_words : List (List Char) :=
  ["password".toList, "123456".toList, "qwerty".toList, "admin".toList,
   "welcome".toList, "login".toList, "abc123".toList, "letmein".toList,
   "monkey".toList, "football".toList]

/-- Embedding of `find_patterns` (src/main.py lines 72–111):
  * `sequential_chars` counts indices `i` with
    `ord(p[i]) + 1 == ord(p[i+1])` and `ord(p[i+1]) + 1 == ord(p[i+2])`;
  * `repeated_chars` counts indices `i` with `p[i] == p[i+1] == p[i+2]`;
  * `keyboard_patterns` counts, over the three keyboard rows, the length-3
    slices `row[i:i+3]` that occur (case-insensitively) in the password;
  * `common_words` counts the dictionary words occurring
    (case-insensitively) in the password. -/
def find_patterns (password : List Char) : PatternCounts :=
  let lowered := password.map asciiLower
  { sequential_chars :=
      (triples password).countP fun t =>
        decide (t.1.toNat + 1 = t.2.1.toNat) && decide (t.2.1.toNat + 1 = t.2.2.toNat)
  , repeated_chars :=
      (triples password).countP fun t => t.1 == t.2.1 && t.2.1 == t.2.2
  , keyboard_patterns :=
      (keyboard_rows.map fun row =>
        (List.range (row.length - 2)).countP fun i =>
          containsSub (((row.drop i).take 3).map asciiLower) lowered).sum
  , common_words :=
      common_words.countP fun w => containsSub w lowered }

/-- C7: the four sanity bounds of the pattern detector, each at its concrete
input: a repeated run in "aaa", a sequential run in "abc", a keyboard slice
in "qwe", and a dictionary hit in "mypassword1". -/
theorem find_patterns_sanity :
    1 ≤ (find_patterns ['a', 'a', 'a']).repeated_chars ∧
    1 ≤ (find_patterns ['a', 'b', 'c']).sequential_chars ∧
    1 ≤ (find_patterns ['q', 'w', 'e']).keyboard_patterns ∧
    1 ≤ (find_patterns "mypassword1".toList).common_words := by
  decide

/-- Mathematical substring occurrence: `needle` appears contiguously
somewhere inside `hay`. -/
def Occurs (needle hay : List Char) : Prop :=
  ∃ pre suf, hay = pre ++ needle ++ suf

/-- The matcher `matchesAt` decides whether `needle` is an initial segment
of `hay`. -/
lemma matchesAt_iff (needle : List Char) : ∀ hay : List Char,
    matchesAt needle hay = true ↔ ∃ suf, hay = needle ++ suf := by
  induction needle with
  | nil =>
    intro hay
    simp [matchesAt]
  | cons a as ih =>
    intro hay
    cases hay with
    | nil =>
      simp [matchesAt]
    | cons b bs =>
      simp only [matchesAt, Bool.and_eq_true, beq_iff_eq, ih bs, List.cons_append,
        List.cons.injEq]
      constructor
      · rintro ⟨rfl, suf, rfl⟩
        exact ⟨suf, rfl, rfl⟩
      · rintro ⟨suf, rfl, rfl⟩
        exact ⟨rfl, suf, rfl⟩

/-- Occurrence in a cons: either at the head position or further right. -/
lemma Occurs_cons (needle : List Char) (c : Char) (t : List Char) :
    Occurs needle (c :: t) ↔ (∃ suf, c :: t = needle ++ suf) ∨ Occurs needle t := by
  constructor
  · rintro ⟨pre, suf, h⟩
    cases pre with
    | nil =>
      exact Or.inl ⟨suf, by simpa using h⟩
    | cons x xs =>
      rw [List.cons_append, List.cons_append] at h
      injection h with h1 h2
      exact Or.inr ⟨xs, suf, by simpa using h2⟩
  · rintro (⟨suf, h⟩ | ⟨pre, suf, h⟩)
    · exact ⟨[], suf, by simpa using h⟩
    · exact ⟨c :: pre, suf, by simp [h]⟩

/-- The Boolean `containsSub` computes exactly the substring-occurrence
relation (in the direction needle-in-haystack). -/
lemma containsSub_iff (needle : List Char) : ∀ hay : List Char,
    containsSub needle hay = true ↔ Occurs needle hay := by
  intro hay
  induction hay with
  | nil =>
    simp only [containsSub, matchesAt_iff, Occurs]
    constructor
    · rintro ⟨suf, h⟩
      exact ⟨[], suf, by simpa using h⟩
    · rintro ⟨pre, suf, h⟩
      rcases List.append_eq_nil.mp (List.append_eq_nil.mp h.symm).1 with ⟨h1, h2⟩
      exact ⟨[], by simp [h2]⟩
  | cons c t ih =>
    rw [containsSub, Bool.or_eq_true, matchesAt_iff, ih, Occurs_cons]

instance (needle hay : List Char) : Decidable (Occurs needle hay) :=
  decidable_of_iff _ (containsSub_iff needle hay)

lemma containsSub_eq_decide (needle hay : List Char) :
    containsSub needle hay = decide (Occurs needle hay) := by
  by_cases h : Occurs needle hay
  · simp [h, (containsSub_iff needle hay).mpr h]
  · simp only [h, decide_False]
    rcases hb : containsSub needle hay with _ | _
    · rfl
    · exact absurd ((containsSub_iff needle hay).mp hb) h

/-- Modelled from the spec, for contrast only: the keyboard scan with the
substring containment direction flipped (password-in-row-slice instead of
row-slice-in-password). -/
def keyboard_patterns_reversed (password : List Char) : Nat :=
  (keyboard_rows.map fun row =>
    (List.range (row.length - 2)).countP fun i =>
      containsSub (password.map asciiLower) (((row.drop i).take 3).map asciiLower)).sum

/-- C3: the keyboard-pattern count equals, over the three fixed rows, the
number of length-3 row slices that occur as case-insensitive substrings of
the password (direction: row-slice-in-password); moreover it differs from
the reversed-direction count, witnessed at the password "q". -/
theorem find_patterns_keyboard (p : List Char) :
    (find_patterns p).keyboard_patterns =
      (keyboard_rows.map fun row =>
        (List.range (row.length - 2)).countP fun i =>
          decide (Occurs (((row.drop i).take 3).map asciiLower) (p.map asciiLower))).sum ∧
    (find_patterns ['q']).keyboard_patterns ≠ keyboard_patterns_reversed ['q'] := by
  refine ⟨?_, by decide⟩
  simp only [find_patterns, containsSub_eq_decide]

/-- The character-set size computed by `analyze_entropy` (src/main.py lines
42–55): 26 if any ASCII lowercase letter is present, plus 26 for uppercase,
plus 10 for digits, plus `len(string.punctuation) = 32` for punctuation;
if no class matched, the fixed minimum 10. -/
def char_set_size (password : List Char) : Nat :=
  let s :=
    (if password.any isAsciiLowercase then 26 else 0) +
    (if password.any isAsciiUppercase then 26 else 0) +
    (if password.any isDigitChar then 10 else 0) +
    (if password.any isPunctuationChar then 32 else 0)
  if s = 0 then 10 else s

/-- Embedding of `analyze_entropy` (src/main.py lines 37–59): 0 for the
empty password, otherwise `log2(char_set_size) * len(password)`. -/
noncomputable def analyze_entropy (password : List Char) : ℝ :=
  if password = [] then 0
  else Real.logb 2 (char_set_size password) * password.length

/-- The character-set size is never below the fixed minimum 10. -/
lemma char_set_size_ge_ten (p : List Char) : 10 ≤ char_set_size p := by
  simp only [char_set_size]
  split_ifs <;> omega

/-- C4: the entropy of the empty password is exactly 0. -/
theorem analyze_entropy_empty : analyze_entropy [] = 0 := by
  simp [analyze_entropy]

/-- C5: on a non-empty password none of whose characters is an ASCII
lowercase letter, ASCII uppercase letter, digit, or punctuation character,
the estimator falls back to alphabet size 10 and returns
`log2(10) * len(password)`. -/
theorem analyze_entropy_fallback (p : List Char) (hne : p ≠ [])
    (h : ∀ c ∈ p, isAsciiLowercase c = false ∧ isAsciiUppercase c = false ∧
      isDigitChar c = false ∧ isPunctuationChar c = false) :
    char_set_size p = 10 ∧ analyze_entropy p = Real.logb 2 10 * p.length := by
  have hl : p.any isAsciiLowercase = false :=
    List.any_eq_false.mpr fun c hc => by simp [(h c hc).1]
  have hu : p.any isAsciiUppercase = false :=
    List.any_eq_false.mpr fun c hc => by simp [(h c hc).2.1]
  have hd : p.any isDigitChar = false :=
    List.any_eq_false.mpr fun c hc => by simp [(h c hc).2.2.1]
  have hp : p.any isPunctuationChar = false :=
    List.any_eq_false.mpr fun c hc => by simp [(h c hc).2.2.2]
  have hsize : char_set_size p = 10 := by
    simp [char_set_size, hl, hu, hd, hp]
  refine ⟨hsize, ?_⟩
  simp [analyze_entropy, hne, hsize]

/-- Witness for C5 at the one-character password consisting of a space
(code 32, in none of the four recognized classes). -/
theorem analyze_entropy_fallback_witness :
    char_set_size [' '] = 10 ∧
    analyze_entropy [' '] = Real.logb 2 10 * (([' '] : List Char).length : ℝ) :=
  analyze_entropy_fallback [' '] (by decide) (by decide)

/-- C6: entropy is monotonically non-decreasing in password length when the
set of recognized character classes present is held fixed (stated as the
four per-class presence checks agreeing between the two passwords). -/
theorem analyze_entropy_monotone (p q : List Char)
    (hl : p.any isAsciiLowercase = q.any isAsciiLowercase)
    (hu : p.any isAsciiUppercase = q.any isAsciiUppercase)
    (hd : p.any isDigitChar = q.any isDigitChar)
    (hp : p.any isPunctuationChar = q.any isPunctuationChar)
    (hlen : p.length ≤ q.length) :
    analyze_entropy p ≤ analyze_entropy q := by
  have hsize : char_set_size p = char_set_size q := by
    simp only [char_set_size, hl, hu, hd, hp]
  have hone : (1 : ℝ) ≤ (char_set_size q : ℝ) := by
    have := char_set_size_ge_ten q
    exact_mod_cast le_trans (by norm_num) this
  have hlog : 0 ≤ Real.logb 2 (char_set_size q) :=
    Real.logb_nonneg (by norm_num) hone
  by_cases hpe : p = []
  · have h0 : analyze_entropy p = 0 := by simp [analyze_entropy, hpe]
    rw [h0]
    by_cases hqe : q = []
    · simp [analyze_entropy, hqe]
    · rw [analyze_entropy, if_neg hqe]
      positivity
  · have hqe : q ≠ [] := by
      intro h
      rw [h] at hlen
      simp only [List.length_nil, Nat.le_zero, List.length_eq_zero] at hlen
      exact hpe hlen
    rw [analyze_entropy, if_neg hpe, analyze_entropy, if_neg hqe, hsize]
    exact mul_le_mul_of_nonneg_left (Nat.cast_le.mpr hlen) hlog

/-- Witness for C6 at the concrete pair "a" and "ab" (same class set, the
second one longer). -/
theorem analyze_entropy_monotone_witness :
    analyze_entropy ['a'] ≤ analyze_entropy ['a', 'b'] :=
  analyze_entropy_monotone ['a'] ['a', 'b'] (by decide) (by decide) (by decide)
    (by decide) (by decide)

/-- C10: for every non-empty password the alphabet size is at least 10, so
the entropy is at least `log2(10) * len(password)` and strictly positive —
including for passwords made only of unrecognized characters. -/
theorem analyze_entropy_lower_bound (p : List Char) (hne : p ≠ []) :
    10 ≤ char_set_size p ∧
    Real.logb 2 10 * p.length ≤ analyze_entropy p ∧
    0 < analyze_entropy p := by
  have hsize := char_set_size_ge_ten p
  have hten : (10 : ℝ) ≤ (char_set_size p : ℝ) := by exact_mod_cast hsize
  have hlb : Real.logb 2 10 ≤ Real.logb 2 (char_set_size p) :=
    Real.logb_le_logb_of_le (by norm_num) (by norm_num) hten
  have hlenpos : (0 : ℝ) < p.length := by
    have : p.length ≠ 0 := fun h => hne (List.length_eq_zero.mp h)
    have : 1 ≤ p.length := Nat.one_le_iff_ne_zero.mpr this
    exact_mod_cast Nat.lt_of_lt_of_le Nat.zero_lt_one this
  have hlogpos : 0 < Real.logb 2 10 := Real.logb_pos (by norm_num) (by norm_num)
  have hmul : Real.logb 2 10 * p.length ≤
      Real.logb 2 (char_set_size p) * p.length :=
    mul_le_mul_of_nonneg_right hlb (le_of_lt hlenpos)
  refine ⟨hsize, ?_, ?_⟩
  · rw [analyze_entropy, if_neg hne]
    exact hmul
  · rw [analyze_entropy, if_neg hne]
    exact lt_of_lt_of_le (mul_pos hlogpos hlenpos) hmul

/-- Witness for C10 at the one-character password "x". -/
theorem analyze_entropy_lower_bound_witness :
    10 ≤ char_set_size ['x'] ∧
    Real.logb 2 10 * (['x'] : List Char).length ≤ analyze_entropy ['x'] ∧
    0 < analyze_entropy ['x'] :=
  analyze_entropy_lower_bound ['x'] (by decide)

/-- Display unit of the crack-time estimate. -/
inductive TimeUnit where
  | seconds
  | minutes
  | hours
  | days
  | years
deriving Repr, DecidableEq

/-- Embedding of `calculate_crack_time` (src/main.py lines 113–136):
`seconds = 2 ** entropy / 10_000_000_000`, converted to a unit by the fixed
thresholds; the last two branches of the Python source both return years. -/
noncomputable def calculate_crack_time (entropy : ℝ) : ℝ × TimeUnit :=
  let seconds : ℝ := 2 ^ entropy / 10000000000
  if seconds < 60 then (seconds, TimeUnit.seconds)
  else if seconds < 3600 then (seconds / 60, TimeUnit.minutes)
  else if seconds < 86400 then (seconds / 3600, TimeUnit.hours)
  else if seconds < 31536000 then (seconds / 86400, TimeUnit.days)
  else if seconds < 31536000 * 100 then (seconds / 31536000, TimeUnit.years)
  else (seconds / 31536000, TimeUnit.years)

/-- C2: with `s = 2 ^ e / 10 ^ 10`, the estimator returns raw seconds below
60, minutes on [60, 3600), hours on [3600, 86400), days on [86400,
31536000), and years for everything at or above 31536000, with no upper
cap. -/
theorem calculate_crack_time_thresholds (e s : ℝ) (hs : s = 2 ^ e / 10 ^ 10) :
    (s < 60 → calculate_crack_time e = (s, TimeUnit.seconds)) ∧
    (60 ≤ s → s < 3600 → calculate_crack_time e = (s / 60, TimeUnit.minutes)) ∧
    (3600 ≤ s → s < 86400 → calculate_crack_time e = (s / 3600, TimeUnit.hours)) ∧
    (86400 ≤ s → s < 31536000 → calculate_crack_time e = (s / 86400, TimeUnit.days)) ∧
    (31536000 ≤ s → calculate_crack_time e = (s / 31536000, TimeUnit.years)) := by
  have h10 : (10 : ℝ) ^ 10 = 10000000000 := by norm_num
  rw [h10] at hs
  subst hs
  simp only [calculate_crack_time]
  refine ⟨fun h1 => ?_, fun h1 h2 => ?_, fun h1 h2 => ?_, fun h1 h2 => ?_, fun h1 => ?_⟩ <;>
    split_ifs <;> first | rfl | linarith

/-- Witness for C2: the five concrete raw-seconds values of the claim
(30, 120, 7200, 200000, 40000000), each reached by the entropy value whose
power of two is the corresponding number of guesses. -/
theorem calculate_crack_time_thresholds_witness :
    calculate_crack_time (Real.logb 2 (3 * 10 ^ 11)) = (30, TimeUnit.seconds) ∧
    calculate_crack_time (Real.logb 2 (12 * 10 ^ 11)) = (2, TimeUnit.minutes) ∧
    calculate_crack_time (Real.logb 2 (72 * 10 ^ 12)) = (2, TimeUnit.hours) ∧
    calculate_crack_time (Real.logb 2 (2 * 10 ^ 15)) =
      (200000 / 86400, TimeUnit.days) ∧
    calculate_crack_time (Real.logb 2 (4 * 10 ^ 17)) =
      (40000000 / 31536000, TimeUnit.years) := by
  have hpow : ∀ x : ℝ, 0 < x → (2 : ℝ) ^ Real.logb 2 x = x := fun x hx =>
    Real.rpow_logb (by norm_num) (by norm_num) hx
  refine ⟨?_, ?_, ?_, ?_, ?_⟩
  · have h := (calculate_crack_time_thresholds (Real.logb 2 (3 * 10 ^ 11)) 30
      (by rw [hpow _ (by norm_num)]; norm_num)).1 (by norm_num)
    exact h
  · have h := (calculate_crack_time_thresholds (Real.logb 2 (12 * 10 ^ 11)) 120
      (by rw [hpow _ (by norm_num)]; norm_num)).2.1 (by norm_num) (by norm_num)
    rw [h]
    norm_num
  · have h := (calculate_crack_time_thresholds (Real.logb 2 (72 * 10 ^ 12)) 7200
      (by rw [hpow _ (by norm_num)]; norm_num)).2.2.1 (by norm_num) (by norm_num)
    rw [h]
    norm_num
  · exact (calculate_crack_time_thresholds (Real.logb 2 (2 * 10 ^ 15)) 200000
      (by rw [hpow _ (by norm_num)]; norm_num)).2.2.2.1 (by norm_num) (by norm_num)
  · exact (calculate_crack_time_thresholds (Real.logb 2 (4 * 10 ^ 17)) 40000000
      (by rw [hpow _ (by norm_num)]; norm_num)).2.2.2.2 (by norm_num)

/-- Embedding of `get_suggestions` (src/main.py lines 160–197): an empty
password short-circuits to the fixed prompt; otherwise the nine rules are
evaluated in source order, each appending its fixed string when it fires,
and the fixed "looks good" string is returned when none fired. -/
def get_suggestions (password : List Char) (char_distribution : CharDistribution)
    (patterns : PatternCounts) : List String :=
  if password = [] then ["Enter a password to get suggestions"]
  else
    let suggestions :=
      (if password.length < 12 then
        ["Make your password longer (aim for at least 12 characters)"] else []) ++
      (if char_distribution.lowercase = 0 then ["Add lowercase letters"] else []) ++
      (if char_distribution.uppercase = 0 then ["Add uppercase letters"] else []) ++
      (if char_distribution.digits = 0 then ["Add numbers"] else []) ++
      (if char_distribution.special = 0 then
        ["Add special characters (e.g., @, #, $, %)"] else []) ++
      (if patterns.sequential_chars > 0 then
        ["Avoid sequential characters (e.g., abc, 123)"] else []) ++
      (if patterns.repeated_chars > 0 then
        ["Avoid repeated characters (e.g., aaa, 111)"] else []) ++
      (if patterns.keyboard_patterns > 0 then
        ["Avoid keyboard patterns (e.g., qwerty, asdf)"] else []) ++
      (if patterns.common_words > 0 then ["Avoid common words and patterns"] else [])
    if suggestions = [] then
      ["Your password looks good! Remember to use different passwords for different accounts."]
    else suggestions

/-- C8: on the empty password the generator returns exactly the fixed
prompt, whatever distribution and pattern records are supplied. -/
theorem get_suggestions_empty (char_distribution : CharDistribution)
    (patterns : PatternCounts) :
    get_suggestions [] char_distribution patterns =
      ["Enter a password to get suggestions"] := by
  simp [get_suggestions]

/-- C9: a password of length at least 12 whose distribution has all four
recognized class counts positive and whose four pattern counts are all zero
receives exactly the single "looks good" suggestion. -/
theorem get_suggestions_strong (p : List Char)
    (hlen : 12 ≤ p.length)
    (h1 : 0 < (analyze_character_distribution p).lowercase)
    (h2 : 0 < (analyze_character_distribution p).uppercase)
    (h3 : 0 < (analyze_character_distribution p).digits)
    (h4 : 0 < (analyze_character_distribution p).special)
    (h5 : (find_patterns p).sequential_chars = 0)
    (h6 : (find_patterns p).repeated_chars = 0)
    (h7 : (find_patterns p).keyboard_patterns = 0)
    (h8 : (find_patterns p).common_words = 0) :
    get_suggestions p (analyze_character_distribution p) (find_patterns p) =
      ["Your password looks good! Remember to use different passwords for different accounts."] := by
  have hne : p ≠ [] := by
    intro h
    rw [h] at hlen
    simp at hlen
  have c0 : ¬ p.length < 12 := by omega
  have c1 : (analyze_character_distribution p).lowercase ≠ 0 := by omega
  have c2 : (analyze_character_distribution p).uppercase ≠ 0 := by omega
  have c3 : (analyze_character_distribution p).digits ≠ 0 := by omega
  have c4 : (analyze_character_distribution p).special ≠ 0 := by omega
  simp [get_suggestions, hne, c0, c1, c2, c3, c4, h5, h6, h7, h8]

/-- Witness for C9 at the 16-character password "Aa1!Aa1!Aa1!Aa1!", which
contains all four classes and triggers no pattern rule. -/
theorem get_suggestions_strong_witness :
    get_suggestions "Aa1!Aa1!Aa1!Aa1!".toList
        (analyze_character_distribution "Aa1!Aa1!Aa1!Aa1!".toList)
        (find_patterns "Aa1!Aa1!Aa1!Aa1!".toList) =
      ["Your password looks good! Remember to use different passwords for different accounts."] :=
  get_suggestions_strong "Aa1!Aa1!Aa1!Aa1!".toList (by decide) (by decide)
    (by decide) (by decide) (by decide) (by decide) (by decide) (by decide)
    (by decide)
